import Mathlib

/-!
Verification development for the `ssmenv` exporter
(`ssmenv/env.py`): a CLI tool that fetches a parameter from a cloud
parameter store, parses its value as JSON, and writes each key/value
pair of the resulting mapping as a `key=value` line into a local
`.env` file, truncating it first.

The source function is

  def savessm(param_name: str):
      session = boto3.Session()
      client = session.client('ssm')
      parameter_value = client.get_parameter(Name=param_name)['ParameterValue']
      vars = json.loads(parameter_value)
      with open(".env", "w") as f:
          for key, value in vars.items():
              f.write(f"{key}={value}\n")

  if __name__ == "__main__":
      typer.run(savessm)

The remote store, the standard JSON library, the CLI layer and the
file system are external to the repository; they are embedded here by
executable models of their documented behavior, and the control flow
of `savessm` itself is translated line by line.  In particular the
documented `get_parameter` response is `{"Parameter": {"Value": ...}}`,
so line 8's `['ParameterValue']` subscript — repository code — raises
`KeyError` on every successful fetch, and the parse/open/write stages
of lines 9-12 are unreachable; both the subscript and those stages
are translated below (`savessm`, `savessm_body`).
-/

namespace SSMEnv

/-! ### Python values produced by `json.loads`

`json.loads` maps JSON objects to `dict`, arrays to `list`, strings to
`str`, integral numbers to `int`, `true`/`false` to `bool`, `null` to
`None`.  The model covers JSON numbers without fractional or exponent
parts (integers); no claim involves a float value.  A `dict` is an
insertion-ordered association list whose keys are unique. -/

inductive PyVal where
  | null : PyVal
  | bool (b : Bool) : PyVal
  | int (n : Int) : PyVal
  | str (s : String) : PyVal
  | list (elts : List PyVal) : PyVal
  | dict (items : List (String × PyVal)) : PyVal

/-- First value bound to key `k` in an association list (Python dict
lookup once keys are unique). -/
def dictGet (k : String) : List (String × PyVal) → Option PyVal
  | [] => none
  | kv :: rest => if kv.1 = k then some kv.2 else dictGet k rest

/-- Python dict assignment `d[k] = v`: if `k` is already present, its
value is updated in place (the key keeps its original position);
otherwise the pair is appended at the end. -/
def dictInsert (d : List (String × PyVal)) (k : String) (v : PyVal) :
    List (String × PyVal) :=
  if d.any (fun kv => kv.1 == k) then
    d.map (fun kv => if kv.1 = k then (k, v) else kv)
  else
    d ++ [(k, v)]

/-- Building a Python dict from a sequence of key/value pairs by
repeated assignment, as the JSON decoder does for object members.  A
duplicated key keeps its first position but receives the value of its
last occurrence. -/
def toDict (ps : List (String × PyVal)) : List (String × PyVal) :=
  ps.foldl (fun d kv => dictInsert d kv.1 kv.2) []

/-! ### Characters used by the JSON grammar -/

def chQuote : Char := Char.ofNat 34
def chBackslash : Char := Char.ofNat 92
def chSlash : Char := Char.ofNat 47
def chLBrace : Char := Char.ofNat 123
def chRBrace : Char := Char.ofNat 125
def chLBrack : Char := Char.ofNat 91
def chRBrack : Char := Char.ofNat 93
def chColon : Char := Char.ofNat 58
def chComma : Char := Char.ofNat 44
def chMinus : Char := Char.ofNat 45
def chDot : Char := Char.ofNat 46
def chTab : Char := Char.ofNat 9
def chLF : Char := Char.ofNat 10
def chCR : Char := Char.ofNat 13

def isWsChar (c : Char) : Bool :=
  c = ' ' || c = chTab || c = chLF || c = chCR

def skipWs : List Char → List Char
  | [] => []
  | c :: cs => if isWsChar c then skipWs cs else c :: cs

def takeDigits : List Char → List Char × List Char
  | [] => ([], [])
  | c :: cs =>
    if c.isDigit then
      let r := takeDigits cs
      (c :: r.1, r.2)
    else ([], c :: cs)

def digitsToNat (ds : List Char) : Nat :=
  ds.foldl (fun n c => n * 10 + (c.toNat - 48)) 0

/-- JSON integer literal: optional minus sign, then digits with no
superfluous leading zero.  A following `.`, `e` or `E` would start a
float literal, which is outside the modelled fragment, so the model
rejects it (no claim involves float values). -/
def parseIntLit (cs : List Char) : Option (PyVal × List Char) :=
  let p := if cs.headD ' ' = chMinus then (true, cs.tail) else (false, cs)
  let dsr := takeDigits p.2
  match dsr.1 with
  | [] => none
  | d :: ds =>
    if d = '0' ∧ ds ≠ [] then none
    else if dsr.2.headD ' ' = chDot ∨ dsr.2.headD ' ' = 'e' ∨ dsr.2.headD ' ' = 'E' then
      none
    else
      let n : Int := Int.ofNat (digitsToNat (d :: ds))
      some (.int (if p.1 then -n else n), dsr.2)

/-- JSON string escapes.  The `\uXXXX` form is outside the modelled
fragment (no claim involves it). -/
def escMap (c : Char) : Option Char :=
  if c = chQuote then some chQuote
  else if c = chBackslash then some chBackslash
  else if c = chSlash then some chSlash
  else if c = 'b' then some (Char.ofNat 8)
  else if c = 'f' then some (Char.ofNat 12)
  else if c = 'n' then some chLF
  else if c = 'r' then some chCR
  else if c = 't' then some chTab
  else none

/-- Body of a JSON string after the opening quote: returns the decoded
characters and the input after the closing quote.  Raw control
characters are rejected, as by Python's strict decoder. -/
def parseStringBody : List Char → Option (List Char × List Char)
  | [] => none
  | c :: cs =>
    if c = chQuote then some ([], cs)
    else if c = chBackslash then
      match cs with
      | [] => none
      | e :: cs2 =>
        match escMap e with
        | none => none
        | some ec =>
          match parseStringBody cs2 with
          | none => none
          | some (body, rest) => some (ec :: body, rest)
    else if c.toNat < 32 then none
    else
      match parseStringBody cs with
      | none => none
      | some (body, rest) => some (c :: body, rest)

/-- Work items of the JSON decoder: a value, the inside of an object or
array, or the member/element loop with its accumulator. -/
inductive PTask where
  | val (cs : List Char) : PTask
  | objBody (cs : List Char) : PTask
  | members (cs : List Char) (acc : List (String × PyVal)) : PTask
  | arrBody (cs : List Char) : PTask
  | elems (cs : List Char) (acc : List PyVal) : PTask

/-- Recursive-descent JSON decoder, fuelled to make termination
structural.  Object members are accumulated in order and assembled
with `toDict`, mirroring Python's repeated dict assignment. -/
def parseStep : Nat → PTask → Option (PyVal × List Char)
  | 0, _ => none
  | Nat.succ fuel, t =>
    match t with
    | .val cs =>
      match skipWs cs with
      | [] => none
      | c :: rest =>
        if c = chQuote then
          match parseStringBody rest with
          | some (body, r) => some (.str (String.mk body), r)
          | none => none
        else if c = chLBrace then parseStep fuel (.objBody rest)
        else if c = chLBrack then parseStep fuel (.arrBody rest)
        else if c = 't' then
          match rest with
          | 'r' :: 'u' :: 'e' :: r => some (.bool true, r)
          | _ => none
        else if c = 'f' then
          match rest with
          | 'a' :: 'l' :: 's' :: 'e' :: r => some (.bool false, r)
          | _ => none
        else if c = 'n' then
          match rest with
          | 'u' :: 'l' :: 'l' :: r => some (.null, r)
          | _ => none
        else if c = chMinus ∨ c.isDigit then parseIntLit (c :: rest)
        else none
    | .objBody cs =>
      match skipWs cs with
      | [] => none
      | c :: rest =>
        if c = chRBrace then some (.dict [], rest)
        else parseStep fuel (.members (c :: rest) [])
    | .members cs acc =>
      match skipWs cs with
      | [] => none
      | c :: rest =>
        if c = chQuote then
          match parseStringBody rest with
          | none => none
          | some (kbody, r1) =>
            match skipWs r1 with
            | [] => none
            | c2 :: r2 =>
              if c2 = chColon then
                match parseStep fuel (.val r2) with
                | none => none
                | some (v, r3) =>
                  let acc2 := acc ++ [(String.mk kbody, v)]
                  match skipWs r3 with
                  | [] => none
                  | c3 :: r4 =>
                    if c3 = chComma then parseStep fuel (.members r4 acc2)
                    else if c3 = chRBrace then some (.dict (toDict acc2), r4)
                    else none
              else none
        else none
    | .arrBody cs =>
      match skipWs cs with
      | [] => none
      | c :: rest =>
        if c = chRBrack then some (.list [], rest)
        else parseStep fuel (.elems (c :: rest) [])
    | .elems cs acc =>
      match parseStep fuel (.val cs) with
      | none => none
      | some (v, r1) =>
        let acc2 := acc ++ [v]
        match skipWs r1 with
        | [] => none
        | c :: r2 =>
          if c = chComma then parseStep fuel (.elems r2 acc2)
          else if c = chRBrack then some (.list acc2, r2)
          else none

/-- Model of Python `json.loads`: decode one JSON value, allow
surrounding whitespace, reject trailing data.  Each decoding step
consumes at least one input character through at most three fuelled
calls, so `3 * length + 3` fuel never runs out on accepted input. -/
def json_loads (s : String) : Option PyVal :=
  match parseStep (3 * s.length + 3) (.val s.data) with
  | some (v, rest) => if skipWs rest = [] then some v else none
  | none => none

/-! ### Python stringification

The write loop interpolates each value with `f"{key}={value}\n"`,
which applies Python `str()`: strings are emitted raw, `int` as its
decimal text, `True`/`False`/`None` capitalized, and `list`/`dict`
through `repr`, where strings are single-quoted.  The model covers
strings without quotes, backslashes or control characters (no claim
involves escaping inside `repr`). -/

def chSQuote : Char := Char.ofNat 39

def pyStrQuote (s : String) : String :=
  String.mk [chSQuote] ++ s ++ String.mk [chSQuote]

mutual

def pyRepr : PyVal → String
  | .null => "None"
  | .bool true => "True"
  | .bool false => "False"
  | .int n => toString n
  | .str s => pyStrQuote s
  | .list xs => "\x5b" ++ pyReprElems xs ++ "\x5d"
  | .dict its => "\x7b" ++ pyReprItems its ++ "\x7d"

def pyReprElems : List PyVal → String
  | [] => ""
  | [x] => pyRepr x
  | x :: y :: xs => pyRepr x ++ ", " ++ pyReprElems (y :: xs)

def pyReprItems : List (String × PyVal) → String
  | [] => ""
  | [kv] => pyStrQuote kv.1 ++ ": " ++ pyRepr kv.2
  | kv :: kw :: rest => pyStrQuote kv.1 ++ ": " ++ pyRepr kv.2 ++ ", " ++ pyReprItems (kw :: rest)

end

/-- Python `str()` as used by f-string interpolation: raw for strings,
`repr`-like otherwise. -/
def pyStr : PyVal → String
  | .str s => s
  | v => pyRepr v

/-! ### JSON text representation (from the specification's words)

The specification says nested objects and arrays are written using
"their JSON text representation".  This definition follows those words
(JSON serialization with double-quoted strings, lowercase literals,
default separators) and exists only to be compared with the program's
actual stringification `pyStr`. -/

mutual

def specJsonText : PyVal → String
  | .null => "null"
  | .bool true => "true"
  | .bool false => "false"
  | .int n => toString n
  | .str s => "\x22" ++ s ++ "\x22"
  | .list xs => "\x5b" ++ specJsonTextElems xs ++ "\x5d"
  | .dict its => "\x7b" ++ specJsonTextItems its ++ "\x7d"

def specJsonTextElems : List PyVal → String
  | [] => ""
  | [x] => specJsonText x
  | x :: y :: xs => specJsonText x ++ ", " ++ specJsonTextElems (y :: xs)

def specJsonTextItems : List (String × PyVal) → String
  | [] => ""
  | [kv] => "\x22" ++ kv.1 ++ "\x22: " ++ specJsonText kv.2
  | kv :: kw :: rest =>
    "\x22" ++ kv.1 ++ "\x22: " ++ specJsonText kv.2 ++ ", " ++ specJsonTextItems (kw :: rest)

end

/-! ### The run model

The store, the session and the file system are external; a run of
`savessm` is determined by the outcome of the parameter fetch, whether
the `.env` path can be opened for writing, and the prior content of
`.env` (`none` when the file does not exist). -/

/-- Errors surfacing at the process boundary.  `keyError` is the
`KeyError` raised by the `['ParameterValue']` subscript on line 8 of
the source; `jsonDecodeError` is the parse failure the spec
classifies as `MalformedValueError`; `attributeError` is the failure
of `.items()` on a non-dict value; `typeError` is what `json.loads`
raises on a non-string argument. -/
inductive RunError where
  | authenticationError : RunError
  | notFoundError : RunError
  | accessDeniedError : RunError
  | keyError : RunError
  | jsonDecodeError : RunError
  | attributeError : RunError
  | typeError : RunError
  | ioError : RunError
deriving DecidableEq

/-- Result of session creation and of the `client.get_parameter` call
itself: either the call returned its documented response — which
carries the parameter's current value, wrapped as
`get_parameter_response` below — or the SDK layer raised.  The
repository code's subscripting of that response happens afterwards,
inside `savessm`. -/
inductive FetchResult where
  | ok (value : String) : FetchResult
  | err (e : RunError) : FetchResult

/-- Values inside an SDK response dictionary. -/
inductive BotoVal where
  | str (s : String) : BotoVal
  | dict (items : List (String × BotoVal)) : BotoVal

/-- Python dict lookup on a response dictionary: `some` the bound
value, `none` meaning the subscript raises `KeyError`. -/
def botoGet (k : String) : List (String × BotoVal) → Option BotoVal
  | [] => none
  | kv :: rest => if kv.1 = k then some kv.2 else botoGet k rest

/-- Modelled from the SDK's documented behavior: a successful
`get_parameter` call returns `{"Parameter": {..., "Value": value}}` —
the parameter's value sits under the nested `"Value"` key of the
`"Parameter"` member, and the response has no top-level
`"ParameterValue"` key.  Members other than `"Value"` (`Name`,
`Type`, `Version`, ...) play no role in any subscript the source
performs and are omitted. -/
def get_parameter_response (value : String) : List (String × BotoVal) :=
  [("Parameter", .dict [("Value", .str value)])]

/-- What the remote store reports for a parameter name. -/
inductive StoreOutcome where
  | ok (value : String) : StoreOutcome
  | notFound : StoreOutcome
  | accessDenied : StoreOutcome

/-- Modelled from the SDK's documented behavior: a missing parameter
raises the store's not-found error and a denied request its
access-denied error; these surface as the corresponding run errors. -/
def fetchOf : StoreOutcome → FetchResult
  | .ok v => .ok v
  | .notFound => .err .notFoundError
  | .accessDenied => .err .accessDeniedError

/-- The write loop of `savessm`: `for key, value in vars.items():
f.write(f"{key}={value}\n")`, threading the file content being
accumulated. -/
def writeLines : List (String × PyVal) → String → String
  | [], acc => acc
  | kv :: rest, acc => writeLines rest (acc ++ kv.1 ++ "=" ++ pyStr kv.2 ++ "\n")

/-- Expected rendering of a mapping, one `key=value` line per entry. -/
def envRender : List (String × PyVal) → String
  | [] => ""
  | kv :: rest => kv.1 ++ "=" ++ pyStr kv.2 ++ "\n" ++ envRender rest

/-- Lines 9-12 of the source, given a string in `parameter_value`:
`json.loads` it, open `.env` for writing (truncating), iterate
`vars.items()`.  Returns the run's outcome and the resulting `.env`
content.  The open in `"w"` mode truncates the file before the
iteration starts, so a non-dict value would leave `.env` empty while
the run fails with the attribute error of `.items()`. -/
def savessm_body (parameter_value : String) (writable : Bool) (prior : Option String) :
    Except RunError Unit × Option String :=
  match json_loads parameter_value with
  | none => (.error .jsonDecodeError, prior)
  | some vars =>
    if writable then
      match vars with
      | .dict items => (.ok (), some (writeLines items ""))
      | _ => (.error .attributeError, some "")
    else
      (.error .ioError, prior)

/-- The command body after the CLI layer, translated line by line.
Line 8 subscripts the `get_parameter` response with
`['ParameterValue']`; under the documented response shape
(`get_parameter_response`) that key is absent, so the subscript
raises `KeyError` and the run ends with the file untouched — lines
9-12 (`savessm_body`) are unreachable when the fetch succeeds.  The
`some` branches spell out what the source would do with a subscript
result: a string flows into `json.loads`, anything else would make
`json.loads` raise `TypeError`. -/
def savessm (fetch : FetchResult) (writable : Bool) (prior : Option String) :
    Except RunError Unit × Option String :=
  match fetch with
  | .err e => (.error e, prior)
  | .ok value =>
    match botoGet "ParameterValue" (get_parameter_response value) with
    | none => (.error .keyError, prior)
    | some (.str parameter_value) => savessm_body parameter_value writable prior
    | some (.dict _) => (.error .typeError, prior)

/-! ### CLI layer

Modelled from the spec and the CLI library's documented behavior
(`typer.run(savessm)` with one required positional argument): with no
argument the argument parser prints a usage message and exits with
code 2 before the command function runs, so no session is created and
no fetch happens. -/

inductive CLIOutcome where
  | usageError : CLIOutcome
  | ran (r : Except RunError Unit) : CLIOutcome

/-- Process exit code: 2 for a usage error from the argument parser, 0
for success, 1 for an uncaught exception. -/
def exitCode : CLIOutcome → Nat
  | .usageError => 2
  | .ran (.ok _) => 0
  | .ran (.error _) => 1

/-- Whole-process model: parse the argument list, then run `savessm`
on the store's outcome for the given name. -/
def typer_main (args : List String) (store : String → StoreOutcome)
    (writable : Bool) (prior : Option String) : CLIOutcome × Option String :=
  match args with
  | [name] =>
    let r := savessm (fetchOf (store name)) writable prior
    (.ran r.1, r.2)
  | _ => (.usageError, prior)

/-! ### Association-list lemmas for Python dict building -/

theorem dictGet_append (k : String) (l1 l2 : List (String × PyVal)) :
    dictGet k (l1 ++ l2) = (dictGet k l1).orElse fun _ => dictGet k l2 := by
  induction l1 with
  | nil => simp [dictGet, Option.orElse]
  | cons kv rest ih =>
    by_cases h : kv.1 = k
    · simp [dictGet, h, Option.orElse]
    · simp [dictGet, h, ih]

theorem dictGet_eq_none_of_any_false {k : String} {d : List (String × PyVal)}
    (h : d.any (fun kv => kv.1 == k) = false) : dictGet k d = none := by
  induction d with
  | nil => rfl
  | cons kv rest ih =>
    simp only [List.any_cons, Bool.or_eq_false_iff, beq_eq_false_iff_ne] at h
    simp [dictGet, h.1, ih h.2]

theorem dictGet_map_replace {k : String} {v : PyVal} {d : List (String × PyVal)}
    (h : d.any (fun kv => kv.1 == k) = true) :
    dictGet k (d.map fun kv => if kv.1 = k then (k, v) else kv) = some v := by
  induction d with
  | nil => simp at h
  | cons kv rest ih =>
    by_cases hk : kv.1 = k
    · simp [dictGet, hk]
    · simp only [List.any_cons, Bool.or_eq_true_iff, beq_iff_eq, hk, false_or] at h
      simp [dictGet, hk, ih h]

theorem dictGet_map_replace_ne {j k : String} {v : PyVal} (hjk : j ≠ k)
    (d : List (String × PyVal)) :
    dictGet j (d.map fun kv => if kv.1 = k then (k, v) else kv) = dictGet j d := by
  induction d with
  | nil => rfl
  | cons kv rest ih =>
    by_cases hk : kv.1 = k
    · have hkj : k ≠ j := fun h => hjk h.symm
      have hkvj : kv.1 ≠ j := fun h => hjk (h.symm.trans hk)
      simp only [List.map_cons, if_pos hk]
      simp [dictGet, hkj, hkvj, ih]
    · simp only [List.map_cons, if_neg hk]
      by_cases hj : kv.1 = j
      · simp [dictGet, hj]
      · simp [dictGet, hj, ih]

theorem dictGet_dictInsert_self (d : List (String × PyVal)) (k : String) (v : PyVal) :
    dictGet k (dictInsert d k v) = some v := by
  unfold dictInsert
  by_cases h : d.any (fun kv => kv.1 == k) = true
  · simp only [h, if_true]
    exact dictGet_map_replace h
  · have hf : d.any (fun kv => kv.1 == k) = false := by
      cases hx : d.any (fun kv => kv.1 == k)
      · rfl
      · exact absurd hx h
    simp only [hf, Bool.false_eq_true, if_false]
    rw [dictGet_append, dictGet_eq_none_of_any_false hf]
    simp [dictGet, Option.orElse]

theorem dictGet_dictInsert_ne {j k : String} (hjk : j ≠ k)
    (d : List (String × PyVal)) (v : PyVal) :
    dictGet j (dictInsert d k v) = dictGet j d := by
  unfold dictInsert
  by_cases h : d.any (fun kv => kv.1 == k) = true
  · simp only [h, if_true]
    exact dictGet_map_replace_ne hjk d
  · have hf : d.any (fun kv => kv.1 == k) = false := by
      cases hx : d.any (fun kv => kv.1 == k)
      · rfl
      · exact absurd hx h
    simp only [hf, Bool.false_eq_true, if_false]
    rw [dictGet_append]
    have : k ≠ j := fun hx => hjk hx.symm
    cases hd : dictGet j d <;> simp [dictGet, this, Option.orElse]

theorem map_fst_dictInsert (d : List (String × PyVal)) (k : String) (v : PyVal) :
    (dictInsert d k v).map Prod.fst =
      if d.any (fun kv => kv.1 == k) then d.map Prod.fst
      else d.map Prod.fst ++ [k] := by
  unfold dictInsert
  by_cases h : d.any (fun kv => kv.1 == k) = true
  · simp only [h, if_true, List.map_map]
    congr 1
    funext kv
    by_cases hk : kv.1 = k
    · simp [Function.comp, hk]
    · simp [Function.comp, hk]
  · have hf : d.any (fun kv => kv.1 == k) = false := by
      cases hx : d.any (fun kv => kv.1 == k)
      · rfl
      · exact absurd hx h
    simp [hf]

theorem not_mem_keys_of_any_false {k : String} {d : List (String × PyVal)}
    (h : d.any (fun kv => kv.1 == k) = false) : k ∉ d.map Prod.fst := by
  intro hmem
  rcases List.mem_map.mp hmem with ⟨kv, hkv, hfst⟩
  have : d.any (fun kv => kv.1 == k) = true :=
    List.any_eq_true.mpr ⟨kv, hkv, beq_iff_eq.mpr hfst⟩
  rw [h] at this
  cases this

theorem foldl_dictInsert_nodup (ps : List (String × PyVal)) :
    ∀ acc : List (String × PyVal), (acc.map Prod.fst).Nodup →
      (((ps.foldl (fun d kv => dictInsert d kv.1 kv.2) acc)).map Prod.fst).Nodup := by
  induction ps with
  | nil => intro acc h; simpa using h
  | cons kv rest ih =>
    intro acc h
    simp only [List.foldl_cons]
    apply ih
    rw [map_fst_dictInsert]
    by_cases hx : acc.any (fun p => p.1 == kv.1) = true
    · simpa [hx] using h
    · have hf : acc.any (fun p => p.1 == kv.1) = false := by
        cases hy : acc.any (fun p => p.1 == kv.1)
        · rfl
        · exact absurd hy hx
      have hnm := not_mem_keys_of_any_false hf
      simp [hf, List.nodup_append, h, hnm]

theorem toDict_nodup (ps : List (String × PyVal)) :
    ((toDict ps).map Prod.fst).Nodup :=
  foldl_dictInsert_nodup ps [] (by simp)

theorem foldl_dictInsert_get (ps : List (String × PyVal)) :
    ∀ (acc : List (String × PyVal)) (k : String),
      dictGet k (ps.foldl (fun d kv => dictInsert d kv.1 kv.2) acc) =
        (dictGet k ps.reverse).orElse fun _ => dictGet k acc := by
  induction ps with
  | nil => intro acc k; simp [dictGet, Option.orElse]
  | cons kv rest ih =>
    intro acc k
    simp only [List.foldl_cons, List.reverse_cons]
    rw [ih, dictGet_append]
    cases hd : dictGet k rest.reverse with
    | some w => simp [Option.orElse]
    | none =>
      simp only [Option.orElse, Option.none_orElse]
      by_cases hk : kv.1 = k
      · subst hk
        simp [dictGet, dictGet_dictInsert_self, Option.orElse]
      · have : k ≠ kv.1 := fun h => hk h.symm
        simp [dictGet, hk, dictGet_dictInsert_ne this, Option.orElse]

theorem toDict_get (ps : List (String × PyVal)) (k : String) :
    dictGet k (toDict ps) = dictGet k ps.reverse := by
  have h := foldl_dictInsert_get ps [] k
  rw [toDict] at *
  rw [h]
  cases dictGet k ps.reverse <;> simp [dictGet, Option.orElse]

/-! ### Run lemmas -/

theorem writeLines_eq (es : List (String × PyVal)) :
    ∀ acc, writeLines es acc = acc ++ envRender es := by
  induction es with
  | nil => intro acc; simp [writeLines, envRender]
  | cons kv rest ih =>
    intro acc
    simp [writeLines, envRender, ih, String.append_assoc]

theorem savessm_body_dict {s : String} {es : List (String × PyVal)} (p : Option String)
    (h : json_loads s = some (.dict es)) :
    savessm_body s true p = (.ok (), some (envRender es)) := by
  simp [savessm_body, h, writeLines_eq]

theorem savessm_body_parse_fail {s : String} {w : Bool} {p : Option String}
    (h : json_loads s = none) :
    savessm_body s w p = (.error .jsonDecodeError, p) := by
  simp [savessm_body, h]

theorem savessm_body_open_fail {s : String} {v : PyVal} {p : Option String}
    (h : json_loads s = some v) :
    savessm_body s false p = (.error .ioError, p) := by
  simp [savessm_body, h]

theorem savessm_body_nondict {s : String} {v : PyVal} {p : Option String}
    (h : json_loads s = some v) (hnd : ∀ items, v ≠ PyVal.dict items) :
    savessm_body s true p = (.error .attributeError, some "") := by
  cases v with
  | dict items => exact absurd rfl (hnd items)
  | null => simp [savessm_body, h]
  | bool b => simp [savessm_body, h]
  | int n => simp [savessm_body, h]
  | str s2 => simp [savessm_body, h]
  | list xs => simp [savessm_body, h]

theorem savessm_ok_keyerror (s : String) (w : Bool) (p : Option String) :
    savessm (.ok s) w p = (.error .keyError, p) := rfl

/-! ### The claims -/

/-- C1 evaluated on the source as written: with the store answering
the value `{"A":"1","B":"2"}`, the `['ParameterValue']` subscript of
line 8 raises `KeyError` — the documented response shape has no such
key — so the run fails before `json.loads`, `.env` is never opened,
and the claimed `A=1\nB=2\n` is never written.  The claim describes
the spec's intended behavior; the code's subscript is the slip. -/
theorem c1_fetch_keyerror_no_write (prior : Option String) :
    savessm (.ok "\x7b\x22A\x22:\x221\x22,\x22B\x22:\x222\x22\x7d") true prior
      = (.error .keyError, prior) := rfl

/-- C2 evaluated on the source as written: with the store answering
the non-object value `5` and a pre-existing `.env` holding `A=1`, the
run fails at line 8 with the subscript `KeyError`, before `json.loads`
ever inspects the value — not with the claimed `MalformedValueError`;
the file keeps its prior content only because the run dies earlier
than the claim supposes. -/
theorem c2_fetch_keyerror_preserves_env :
    savessm (.ok "5") true (some "A=1\n") = (.error .keyError, some "A=1\n")
    ∧ (savessm (.ok "5") true (some "A=1\n")).1 ≠ .error .jsonDecodeError :=
  ⟨rfl, by simp [savessm_ok_keyerror]⟩

/-- C3 For every fetched parameter value — in particular every value
that is not valid JSON — the run fails before any file operation
occurs: `.env` is neither opened, truncated, nor written, and its
prior content (or absence) is returned unchanged.  In the source the
failure is the `KeyError` of line 8's subscript, which precedes
`json.loads` and the `open`. -/
theorem c3_fails_before_file_ops (s : String) (writable : Bool)
    (prior : Option String) :
    savessm (.ok s) writable prior = (.error .keyError, prior) :=
  savessm_ok_keyerror s writable prior

/-- C4 evaluated on the source as written: with the store answering
`{"K": {"a": "b"}}`, line 8 raises `KeyError` and nothing is written —
the claimed successful-run stringification never happens.  Moreover,
were line 8 repaired, the write loop's `str()` coercion (`pyStr`)
still differs from the JSON text representation the claim asserts:
the nested dict prints single-quoted as `{'a': 'b'}`. -/
theorem c4_fetch_keyerror_and_repr_divergence :
    savessm (.ok "\x7b\x22K\x22: \x7b\x22a\x22: \x22b\x22\x7d\x7d") true none
      = (.error .keyError, none)
    ∧ pyStr (.dict [("a", .str "b")]) ≠ specJsonText (.dict [("a", .str "b")]) :=
  ⟨rfl, by decide⟩

/-- C5 evaluated on the source as written: running twice with the
values `{"A":"1"}` and then `{"B":"2"}` produces no file at all — both
runs fail at line 8 with the subscript `KeyError` and `.env` is never
created, so the claimed second-run content never exists. -/
theorem c5_no_run_produces_file :
    savessm (.ok "\x7b\x22A\x22:\x221\x22\x7d") true none
      = (.error .keyError, none)
    ∧ savessm (.ok "\x7b\x22B\x22:\x222\x22\x7d") true
        (savessm (.ok "\x7b\x22A\x22:\x221\x22\x7d") true none).2
      = (.error .keyError, none) :=
  ⟨rfl, rfl⟩

/-- C6 For every run in which the store reports the parameter missing
or access denied, the export fails with exactly the corresponding
error, and the `.env` file is untouched. -/
theorem c6_store_errors (writable : Bool) (prior : Option String) :
    savessm (fetchOf .notFound) writable prior
        = (.error .notFoundError, prior)
    ∧ savessm (fetchOf .accessDenied) writable prior
        = (.error .accessDeniedError, prior) :=
  ⟨rfl, rfl⟩

/-- C7 Every failure that occurs propagates unmodified as the run's
outcome and ends the run with the file untouched, and a failed run
exits non-zero.  The reachable failures of the source are the
SDK-layer errors of session creation and `get_parameter` (returned
as-is), and the `KeyError` of line 8's subscript, which every
successful fetch raises; the parse, open and write stages are
unreachable, so no failure of theirs can occur, and no step is
retried or recovered. -/
theorem c7_failures_propagate :
    (∀ (e : RunError) (w : Bool) (p : Option String),
        savessm (.err e) w p = (.error e, p))
    ∧ (∀ (s : String) (w : Bool) (p : Option String),
        savessm (.ok s) w p = (.error .keyError, p))
    ∧ (∀ e : RunError, exitCode (.ran (.error e)) ≠ 0) :=
  ⟨fun _ _ _ => rfl,
   fun s w p => savessm_ok_keyerror s w p,
   fun _ => by simp [exitCode]⟩

/-- C8 For every invocation without the positional argument, the
argument-parsing layer reports a usage error with a non-zero exit
code, the file is untouched, and the command body never runs: the
outcome is the same whatever the store would answer, so no fetch is
attempted. -/
theorem c8_missing_arg_usage_error (store : String → StoreOutcome)
    (writable : Bool) (prior : Option String) :
    typer_main [] store writable prior = (.usageError, prior)
    ∧ exitCode (typer_main [] store writable prior).1 ≠ 0
    ∧ (∀ store2 : String → StoreOutcome,
        typer_main [] store writable prior
          = typer_main [] store2 writable prior) :=
  ⟨rfl, by simp [typer_main, exitCode], fun _ => rfl⟩

/-- C9 evaluated on the source as written: with the store answering
`{}`, line 8 raises `KeyError` before `json.loads`, so `.env` is never
created or truncated — starting from no file, no file exists
afterwards, against the claim's promised empty file. -/
theorem c9_fetch_keyerror_empty_object (prior : Option String) :
    savessm (.ok "\x7b\x7d") true prior = (.error .keyError, prior) := rfl

/-- C10 The parsing half of the claim is true of the JSON layer:
assembling an object's member list keeps, for each key, the value of
its last occurrence (`dictGet` on the reversed member list) at a
single entry (no duplicate keys), and the duplicate-key text
`{"a": "1", "b": "2", "a": "3"}` decodes to the mapping
`a ↦ 3, b ↦ 2`.  But the output half never happens in the source:
the run on that value fails at line 8 with the subscript `KeyError`
and writes no file. -/
theorem c10_dup_keys_parse_but_no_file :
    (∀ (ps : List (String × PyVal)) (k : String),
        dictGet k (toDict ps) = dictGet k ps.reverse)
    ∧ (∀ ps : List (String × PyVal), ((toDict ps).map Prod.fst).Nodup)
    ∧ json_loads "\x7b\x22a\x22: \x221\x22, \x22b\x22: \x222\x22, \x22a\x22: \x223\x22\x7d"
        = some (.dict [("a", .str "3"), ("b", .str "2")])
    ∧ savessm (.ok "\x7b\x22a\x22: \x221\x22, \x22b\x22: \x222\x22, \x22a\x22: \x223\x22\x7d")
        true none = (.error .keyError, none) :=
  ⟨toDict_get, toDict_nodup, rfl, rfl⟩

end SSMEnv
